import Mathlib

/-!
# spectre-node: finality listener and event handlers

Shallow embedding of

* `chains/evm/listener/listener.go` (`EVMListener.ListenToEvents`),
* `chains/evm/listener/events/handlers/rotate.go` (`RotateHandler.HandleEvents`),
* the deposit handler exercised by `chains/evm/listener/events/handlers/deposit_test.go`.

Conventions of the embedding.

* External collaborators (beacon provider, sync-committee fetcher, prover, event fetcher,
  registered handlers) are interfaces whose state is unknown; they are functions over an
  arbitrary world type `W`, threaded explicitly through every call.
* Every observable action (request, sleep, handler invocation, channel send) is appended to a
  trace, so that "how many times" and "in which order" are statements about a list.
* A Go call that returns `error` yields `Result.nil`, `Result.err e`, or `Result.panic` when a
  run-time fault (nil pointer dereference) unwinds the call.
* A channel send `ch <- batch` is recorded as a `send` event; the consumer is assumed to drain
  the channel, so a send always completes.
* `*big.Int` values are `Int`; `uint64`/`uint8` values are `Nat`; fixed-width conversions are
  written out with `% 2^64`.
-/

namespace Spectre

/-- Outcome of a Go call whose only return value is `error`. -/
inductive Result (ε : Type) where
  | nil
  | err (e : ε)
  | panic
deriving DecidableEq, Repr

/-- The generic `api.Response[T]` of the consensus client: only `Data` is read. -/
structure Response (α : Type) where
  Data : α
deriving DecidableEq, Repr

/-! ## Outbound messages -/

/-- Message-type tag of an outbound message. -/
inductive MessageType where
  | deposit
  | rotate
deriving DecidableEq, Repr

/-- The relayer message: source domain, destination domain, payload and type tag. -/
structure Message (δ : Type) where
  Source : Nat
  Destination : Nat
  Data : δ
  Type_ : MessageType
deriving DecidableEq, Repr

/-- Payload of a rotate message as built in `rotate.go`: `RotateInput` and `StepInput` are the
zero values of their types and carry no information. -/
structure RotateData (π : Type) where
  RotateProof : π
  StepProof : π
deriving DecidableEq, Repr

/-- Modelled from the spec: `evmMessage.NewEvmRotateMessage` lives in `chains/evm/message`,
which is not among the sources. An outbound message carries "a source domain, a destination
domain, a message-type tag (deposit / rotate), and a type-specific payload". -/
def NewEvmRotateMessage {π : Type} (source destination : Nat) (rotateData : RotateData π) :
    Message (RotateData π) :=
  { Source := source, Destination := destination, Data := rotateData, Type_ := MessageType.rotate }

/-! ## RotateHandler (`rotate.go`) -/

/-- The value `apiv1.SyncCommittee`, observed by the handler only through `String()`. -/
structure SyncCommittee where
  String : String
deriving DecidableEq, Repr

/-- Interface `SyncCommitteeFetcher`; the argument is `opts.State`. -/
structure SyncCommitteeFetcher (W ε : Type) where
  SyncCommittee : String → W → Except ε (Response SyncCommittee) × W

/-- Interface `Prover` as used by `rotate.go`. -/
structure Prover (W ε π : Type) where
  StepProof : Int → W → Except ε π × W
  RotateProof : Int → W → Except ε π × W

/-- Observable actions of one `RotateHandler.HandleEvents` call. -/
inductive RotateEvent (π : Type) where
  | SyncCommittee (state : String)
  | StepProof (endBlock : Int)
  | RotateProof (endBlock : Int)
  | send (batch : List (Message (RotateData π)))
deriving DecidableEq, Repr

/-- The struct `RotateHandler`. `currentSyncCommittee` is a pointer: `none` is Go's nil.
`msgChan` is represented by the `send` events of the trace. -/
structure RotateHandler (W ε π : Type) where
  domainID : Nat
  domains : List Nat
  prover : Prover W ε π
  syncCommitteeFetcher : SyncCommitteeFetcher W ε
  currentSyncCommittee : Option (Response SyncCommittee)

/-- The constructor `NewRotateHandler`: `currentSyncCommittee` is not set, hence nil. -/
def NewRotateHandler {W ε π : Type} (domainID : Nat) (domains : List Nat)
    (syncCommitteeFetcher : SyncCommitteeFetcher W ε) (prover : Prover W ε π) :
    RotateHandler W ε π :=
  { syncCommitteeFetcher := syncCommitteeFetcher
    prover := prover
    domainID := domainID
    domains := domains
    currentSyncCommittee := none }

/-- What one call of `HandleEvents` leaves behind. -/
structure RotateOutcome (W ε π : Type) where
  result : Result ε
  handler : RotateHandler W ε π
  world : W
  trace : List (RotateEvent π)

/-- The method `RotateHandler.HandleEvents`. -/
def RotateHandler.HandleEvents {W ε π : Type} (h : RotateHandler W ε π)
    (_startBlock endBlock : Int) (w : W) : RotateOutcome W ε π :=
  match h.syncCommitteeFetcher.SyncCommittee "finalized" w with
  | (.error err, w1) => ⟨.err err, h, w1, [.SyncCommittee "finalized"]⟩
  | (.ok syncCommittee, w1) =>
    -- `h.currentSyncCommittee.Data` dereferences the cached pointer
    match h.currentSyncCommittee with
    | none => ⟨.panic, h, w1, [.SyncCommittee "finalized"]⟩
    | some currentSyncCommittee =>
      if syncCommittee.Data.String = currentSyncCommittee.Data.String then
        ⟨.nil, h, w1, [.SyncCommittee "finalized"]⟩
      else
        match h.prover.StepProof endBlock w1 with
        | (.error err, w2) =>
          ⟨.err err, h, w2, [.SyncCommittee "finalized", .StepProof endBlock]⟩
        | (.ok stepProof, w2) =>
          match h.prover.RotateProof endBlock w2 with
          | (.error err, w3) =>
            ⟨.err err, h, w3,
              [.SyncCommittee "finalized", .StepProof endBlock, .RotateProof endBlock]⟩
          | (.ok rotateProof, w3) =>
            ⟨.nil, h, w3,
              [.SyncCommittee "finalized", .StepProof endBlock, .RotateProof endBlock] ++
                h.domains.map (fun domain =>
                  RotateEvent.send
                    [NewEvmRotateMessage h.domainID domain
                      { RotateProof := rotateProof, StepProof := stepProof }])⟩

/-- Batches written to the outbound channel, in order. -/
def RotateEvent.writes {π : Type} : List (RotateEvent π) → List (List (Message (RotateData π)))
  | [] => []
  | .send batch :: rest => batch :: RotateEvent.writes rest
  | _ :: rest => RotateEvent.writes rest

/-- Number of calls made to the prover (`StepProof` or `RotateProof`). -/
def RotateEvent.proverCalls {π : Type} : List (RotateEvent π) → Nat
  | [] => 0
  | .StepProof _ :: rest => RotateEvent.proverCalls rest + 1
  | .RotateProof _ :: rest => RotateEvent.proverCalls rest + 1
  | _ :: rest => RotateEvent.proverCalls rest

/-! ## EVMListener (`listener.go`) -/

/-- The value `phase0.Root`, observed by the listener only through `String()`. -/
structure Root where
  String : String
deriving DecidableEq, Repr

/-- The value `phase0.Checkpoint`; only `Root` is read. -/
structure Checkpoint where
  Root : Root
deriving DecidableEq, Repr

/-- The value `apiv1.Finality`; only `Finalized` and `Justified` are read. -/
structure Finality where
  Finalized : Checkpoint
  Justified : Checkpoint
deriving DecidableEq, Repr

/-- The value `spec.VersionedSignedBeaconBlock`. `Capella` is a pointer that is nil for a block
of another fork; for a Capella block the chain `Message.Body.ExecutionPayload.BlockNumber`
is flattened to its `uint64` block number. -/
structure VersionedSignedBeaconBlock where
  Capella : Option Nat
deriving DecidableEq, Repr

/-- Interface `EventHandler`. -/
structure EventHandler (W ε : Type) where
  HandleEvents : Int → Int → W → Result ε × W

/-- Interface `BeaconProvider`; the `String` arguments are `opts.State` and `opts.Block`. -/
structure BeaconProvider (W ε : Type) where
  Finality : String → W → Except ε (Response Finality) × W
  SignedBeaconBlock : String → W → Except ε (Response VersionedSignedBeaconBlock) × W

/-- The struct `EVMListener` (logger and the unused `blockstore` left out). -/
structure EVMListener (W ε : Type) where
  beaconProvider : BeaconProvider W ε
  eventHandlers : List (EventHandler W ε)
  domainID : Nat
  retryInterval : Nat
  blockInterval : Int

/-- The constructor `NewEVMListener`. -/
def NewEVMListener {W ε : Type} (beaconProvider : BeaconProvider W ε)
    (eventHandlers : List (EventHandler W ε)) (domainID : Nat) (retryInterval : Nat)
    (blockInterval : Int) : EVMListener W ε :=
  { beaconProvider := beaconProvider
    eventHandlers := eventHandlers
    domainID := domainID
    retryInterval := retryInterval
    blockInterval := blockInterval }

/-- Two's-complement reduction of an integer to the `int64` range. -/
def wrapInt64 (i : Int) : Int :=
  (i + 2 ^ 63) % 2 ^ 64 - 2 ^ 63

/-- The Go conversion `int64(u)` of a `uint64` value. -/
def int64OfUint64 (u : Nat) : Int :=
  wrapInt64 ((u % 2 ^ 64 : Nat) : Int)

/-- The method `(*big.Int).Int64`: the low 64 bits of the magnitude as `int64`, negated
(with wrap-around) for a negative receiver. -/
def bigIntInt64 (x : Int) : Int :=
  let v := wrapInt64 ((x.natAbs % 2 ^ 64 : Nat) : Int)
  if x < 0 then wrapInt64 (-v) else v

/-- Observable actions of the listener. A `HandleEvents` entry records the position of the
handler in `eventHandlers`, the arguments it received and what it returned. -/
inductive ListenerEvent (ε : Type) where
  | Finality (state : String)
  | SignedBeaconBlock (block : String)
  | Sleep (d : Nat)
  | HandleEvents (handler : Nat) (startBlock endBlock : Int) (err : Result ε)
deriving DecidableEq, Repr

/-- The loop `for _, handler := range l.eventHandlers`, with `idx` the position of the head of
`handlers` in the registered list. The result is `nil` when the range completes, `err e` when a
handler returned `e` (the loop is left by `continue loop`), `panic` when a handler faulted. -/
def dispatch {W ε : Type} (handlers : List (EventHandler W ε)) (idx : Nat)
    (startBlock endBlock : Int) (w : W) : Result ε × W × List (ListenerEvent ε) :=
  match handlers with
  | [] => (.nil, w, [])
  | handler :: rest =>
    match handler.HandleEvents startBlock endBlock w with
    | (.nil, w1) =>
      let r := dispatch rest (idx + 1) startBlock endBlock w1
      (r.1, r.2.1, .HandleEvents idx startBlock endBlock .nil :: r.2.2)
    | (.err e, w1) => (.err e, w1, [.HandleEvents idx startBlock endBlock (.err e)])
    | (.panic, w1) => (.panic, w1, [.HandleEvents idx startBlock endBlock .panic])

/-- The path taken by one iteration of the loop. -/
inductive Branch where
  | finalityError
  | unchanged
  | blockError
  | handlerError
  | handled
  | panicked
deriving DecidableEq, Repr

/-- What one iteration leaves behind: the path taken, the value of `latestCheckpoint`, the
world and the actions performed. -/
structure Iteration (W ε : Type) where
  branch : Branch
  latestCheckpoint : String
  world : W
  trace : List (ListenerEvent ε)

/-- One pass through the `default:` case of the loop in `ListenToEvents`. -/
def iteration {W ε : Type} (l : EVMListener W ε) (latestCheckpoint : String) (w : W) :
    Iteration W ε :=
  match l.beaconProvider.Finality "finalized" w with
  | (.error _, w1) =>
    ⟨.finalityError, latestCheckpoint, w1, [.Finality "finalized", .Sleep l.retryInterval]⟩
  | (.ok finalityCheckpoint, w1) =>
    if finalityCheckpoint.Data.Finalized.Root.String = latestCheckpoint then
      ⟨.unchanged, latestCheckpoint, w1, [.Finality "finalized", .Sleep l.retryInterval]⟩
    else
      match l.beaconProvider.SignedBeaconBlock finalityCheckpoint.Data.Justified.Root.String w1 with
      | (.error _, w2) =>
        ⟨.blockError, latestCheckpoint, w2,
          [.Finality "finalized",
           .SignedBeaconBlock finalityCheckpoint.Data.Justified.Root.String,
           .Sleep l.retryInterval]⟩
      | (.ok justifiedRoot, w2) =>
        match justifiedRoot.Data.Capella with
        | none =>
          ⟨.panicked, latestCheckpoint, w2,
            [.Finality "finalized",
             .SignedBeaconBlock finalityCheckpoint.Data.Justified.Root.String]⟩
        | some BlockNumber =>
          let endBlock := int64OfUint64 BlockNumber
          let startBlock := endBlock - bigIntInt64 l.blockInterval
          match dispatch l.eventHandlers 0 startBlock endBlock w2 with
          | (.nil, w3, t) =>
            ⟨.handled, finalityCheckpoint.Data.Finalized.Root.String, w3,
              [.Finality "finalized",
               .SignedBeaconBlock finalityCheckpoint.Data.Justified.Root.String] ++ t⟩
          | (.err _, w3, t) =>
            ⟨.handlerError, latestCheckpoint, w3,
              [.Finality "finalized",
               .SignedBeaconBlock finalityCheckpoint.Data.Justified.Root.String] ++ t⟩
          | (.panic, w3, t) =>
            ⟨.panicked, latestCheckpoint, w3,
              [.Finality "finalized",
               .SignedBeaconBlock finalityCheckpoint.Data.Justified.Root.String] ++ t⟩

/-- One iteration as it occurred in a run: the value of `latestCheckpoint` and the world at its
start, and what it did. -/
structure Tick (W ε : Type) where
  latestCheckpoint : String
  world : W
  step : Iteration W ε

/-- The `for` loop of `ListenToEvents`, cut after `fuel` iterations: the list of the iterations
performed. `ctxDone` tells whether `ctx.Done()` is ready; a fault ends the run. -/
def loop {W ε : Type} (l : EVMListener W ε) (ctxDone : W → Bool) :
    Nat → String → W → List (Tick W ε)
  | 0, _, _ => []
  | fuel + 1, latestCheckpoint, w =>
    if ctxDone w then []
    else
      let it := iteration l latestCheckpoint w
      ⟨latestCheckpoint, w, it⟩ ::
        (if it.branch = .panicked then [] else loop l ctxDone fuel it.latestCheckpoint it.world)

/-- The method `EVMListener.ListenToEvents`, observed for at most `fuel` iterations. -/
def ListenToEvents {W ε : Type} (l : EVMListener W ε) (ctxDone : W → Bool) (_epoch : Int)
    (fuel : Nat) (w : W) : List (Tick W ε) :=
  loop l ctxDone fuel "0x0000000000000000000000000000000000000000000000000000000000000000" w

/-- One handler invocation: position of the handler, arguments received, value returned. -/
structure Call (ε : Type) where
  handler : Nat
  startBlock : Int
  endBlock : Int
  err : Result ε
deriving DecidableEq, Repr

/-- The handler invocations recorded in a trace, in order. -/
def ListenerEvent.calls {ε : Type} : List (ListenerEvent ε) → List (Call ε)
  | [] => []
  | .HandleEvents i s e r :: rest => ⟨i, s, e, r⟩ :: ListenerEvent.calls rest
  | _ :: rest => ListenerEvent.calls rest

/-- The durations slept in a trace, in order. -/
def ListenerEvent.sleeps {ε : Type} : List (ListenerEvent ε) → List Nat
  | [] => []
  | .Sleep d :: rest => d :: ListenerEvent.sleeps rest
  | _ :: rest => ListenerEvent.sleeps rest

/-- The number of `Finality` requests in a trace. -/
def ListenerEvent.finalityRequests {ε : Type} : List (ListenerEvent ε) → Nat
  | [] => 0
  | .Finality _ :: rest => ListenerEvent.finalityRequests rest + 1
  | _ :: rest => ListenerEvent.finalityRequests rest

/-! ## DepositEventHandler

`deposit.go` is not among the sources (only `deposit_test.go` is), so the handler is written
down from section 4.3 of the specification. -/

/-- The value `types.Log` returned by the event fetcher: a byte payload and an ordered list of
topic hashes, each a list of bytes. -/
structure Log where
  Data : List Nat
  Topics : List (List Nat)
deriving DecidableEq, Repr

/-- The decoded form of a deposit log: destination domain identifier, deposit nonce, resource
identifier, sender address and the deposit-data payload. -/
structure Deposit where
  DestinationDomainID : Nat
  DepositNonce : Nat
  ResourceID : List Nat
  SenderAddress : List Nat
  Data : List Nat
deriving DecidableEq, Repr

/-- Interface `EventFetcher`: contract address, topic signature, first and last block. -/
structure EventFetcher (W ε : Type) where
  FetchEventLogs : List Nat → String → Int → Int → W → Except ε (List Log) × W

/-- Observable actions of one `DepositEventHandler.HandleEvents` call. -/
inductive DepositEvent (δ : Type) where
  | FetchEventLogs (address : List Nat) (sig : String) (startBlock endBlock : Int)
  | send (batch : List (Message δ))
deriving DecidableEq, Repr

/-- Modelled from the spec: the struct `DepositEventHandler` of `deposit.go`, which is not
among the sources. Construction parameters are the outbound channel (represented by the `send`
events of the trace), the event fetcher and the contract address to filter on. The deposit
topic signature, the log decoder and the message constructor belong to packages that are not
among the sources either and are carried as fields. -/
structure DepositEventHandler (W ε δ : Type) where
  eventFetcher : EventFetcher W ε
  bridgeAddress : List Nat
  DepositSig : String
  unpackDeposit : Log → Option Deposit
  newMessage : Deposit → Message δ

/-- What one call of the deposit handler leaves behind. -/
structure DepositOutcome (W ε δ : Type) where
  result : Result ε
  world : W
  trace : List (DepositEvent δ)

/-- Modelled from the spec: the method `DepositEventHandler.HandleEvents` of `deposit.go`,
which is not among the sources. Step 1 fetches the logs of the configured address and deposit
signature for the range and returns the error on failure; step 2 decodes each log, skipping
the ones that fail; step 3 builds one message per decoded record; step 4 writes the batch
once if it is non-empty and returns success either way. -/
def DepositEventHandler.HandleEvents {W ε δ : Type} (eh : DepositEventHandler W ε δ)
    (startBlock endBlock : Int) (w : W) : DepositOutcome W ε δ :=
  match eh.eventFetcher.FetchEventLogs eh.bridgeAddress eh.DepositSig startBlock endBlock w with
  | (.error err, w1) =>
    ⟨.err err, w1, [.FetchEventLogs eh.bridgeAddress eh.DepositSig startBlock endBlock]⟩
  | (.ok logs, w1) =>
    let deposits := logs.filterMap eh.unpackDeposit
    let msgs := deposits.map eh.newMessage
    match msgs with
    | [] => ⟨.nil, w1, [.FetchEventLogs eh.bridgeAddress eh.DepositSig startBlock endBlock]⟩
    | m :: ms =>
      ⟨.nil, w1,
        [.FetchEventLogs eh.bridgeAddress eh.DepositSig startBlock endBlock, .send (m :: ms)]⟩

/-- Batches written to the outbound channel by the deposit handler, in order. -/
def DepositEvent.writes {δ : Type} : List (DepositEvent δ) → List (List (Message δ))
  | [] => []
  | .send batch :: rest => batch :: DepositEvent.writes rest
  | _ :: rest => DepositEvent.writes rest

/-! ## Concrete instances used to exercise the definitions -/

namespace Example

/-- A fetcher that always reports the committee `sc`. -/
def fetcher (sc : String) : SyncCommitteeFetcher Unit String :=
  ⟨fun _ w => (.ok ⟨⟨sc⟩⟩, w)⟩

/-- A prover whose two proofs succeed. -/
def proverOk : Prover Unit String Nat :=
  ⟨fun _ w => (.ok 7, w), fun _ w => (.ok 9, w)⟩

/-- A prover whose step proof fails. -/
def proverStepFails : Prover Unit String Nat :=
  ⟨fun _ w => (.error "step", w), fun _ w => (.ok 9, w)⟩

/-- A handler with cached committee `old`, and destinations `domains`. -/
def rotateHandler (prover : Prover Unit String Nat) (fetched : String) (domains : List Nat) :
    RotateHandler Unit String Nat :=
  { domainID := 1
    domains := domains
    prover := prover
    syncCommitteeFetcher := fetcher fetched
    currentSyncCommittee := some ⟨⟨"old"⟩⟩ }

/-- A beacon provider over a call counter: the `k`-th `Finality` request reports the finalized
root `roots k`; every block request is answered with `block`. -/
def beacon (roots : Nat → String) (block : Except String (Option Nat)) :
    BeaconProvider Nat String :=
  ⟨fun _ w => (.ok ⟨⟨⟨⟨roots w⟩⟩, ⟨⟨"0x11"⟩⟩⟩⟩, w + 1),
   fun _ w => (block.map (fun b => ⟨⟨b⟩⟩), w)⟩

/-- A beacon provider whose `Finality` request fails. -/
def beaconDown : BeaconProvider Nat String :=
  ⟨fun _ w => (.error "down", w + 1), fun _ w => (.ok ⟨⟨some 10⟩⟩, w)⟩

/-- A handler that succeeds. -/
def okHandler : EventHandler Nat String :=
  ⟨fun _ _ w => (.nil, w)⟩

/-- A handler that returns an error. -/
def failingHandler : EventHandler Nat String :=
  ⟨fun _ _ w => (.err "boom", w)⟩

/-- A listener with retry interval 5. -/
def listener (beaconProvider : BeaconProvider Nat String)
    (eventHandlers : List (EventHandler Nat String)) (blockInterval : Int) :
    EVMListener Nat String :=
  NewEVMListener beaconProvider eventHandlers 1 5 blockInterval

/-- The first log of `Test_HandleEvents_ValidDeposit`: data `"invalid"`, no topics. -/
def invalidLog : Log :=
  { Data := [105, 110, 118, 97, 108, 105, 100], Topics := [] }

/-- The second log of `Test_HandleEvents_ValidDeposit`: six 32-byte words
`2, 1, 1, 1, 0xa0, 0` and the topics `[zero hash, hash of the sender address]`. -/
def validLog : Log :=
  { Data :=
      List.replicate 31 0 ++ [2] ++ List.replicate 31 0 ++ [1] ++ List.replicate 31 0 ++ [1] ++
        List.replicate 31 0 ++ [1] ++ List.replicate 31 0 ++ [160] ++ List.replicate 32 0
    Topics :=
      [List.replicate 32 0,
       List.replicate 12 0 ++
         [0xd6, 0x8e, 0xb9, 0xb5, 0xe1, 0x35, 0xb9, 0x6c, 0x1a, 0xf1, 0x65, 0xe1, 0xd8, 0xc4,
          0xe2, 0xeb, 0x0e, 0x1c, 0xe4, 0xcd]] }

/-- A decoder that rejects short data and a missing sender topic. -/
def unpack (l : Log) : Option Deposit :=
  if l.Data.length < 160 then none
  else
    match l.Topics with
    | _ :: user :: _ =>
      some
        { DestinationDomainID := (l.Data.take 32).getLastD 0
          DepositNonce := ((l.Data.drop 96).take 32).getLastD 0
          ResourceID := (l.Data.drop 64).take 32
          SenderAddress := user.drop 12
          Data := l.Data.drop 160 }
    | _ => none

/-- The handler of the test suite: the fetcher answers with the two logs of
`Test_HandleEvents_ValidDeposit`. -/
def depositHandler : DepositEventHandler Unit String Deposit :=
  { eventFetcher := ⟨fun _ _ _ _ w => (.ok [invalidLog, validLog], w)⟩
    bridgeAddress :=
      [0xb0, 0xb1, 0x3f, 0x01, 0x09, 0xef, 0x09, 0x7c, 0x3a, 0xa7, 0x0f, 0xb5, 0x43, 0xea,
       0x49, 0x42, 0x11, 0x4a, 0x84, 0x5d]
    DepositSig := "Deposit"
    unpackDeposit := unpack
    newMessage := fun d =>
      { Source := 1, Destination := d.DestinationDomainID, Data := d,
        Type_ := MessageType.deposit } }

/-- The root sequence `0xaa, 0xbb, 0xaa, 0xaa, ...`. -/
def rootsABA : Nat → String
  | 1 => "0xbb"
  | _ => "0xaa"

end Example

/-! ## Theorems: RotateHandler -/

section Rotate

variable {W ε π : Type}

theorem writes_map_send (f : Nat → List (Message (RotateData π))) (ds : List Nat) :
    RotateEvent.writes (ds.map (fun d => RotateEvent.send (f d))) = ds.map f := by
  induction ds with
  | nil => rfl
  | cons d ds ih => simp [RotateEvent.writes, ih]

theorem proverCalls_map_send (f : Nat → List (Message (RotateData π))) (ds : List Nat) :
    RotateEvent.proverCalls (ds.map (fun d => RotateEvent.send (f d))) = 0 := by
  induction ds with
  | nil => rfl
  | cons d ds ih => simp [RotateEvent.proverCalls, ih]

theorem flatten_map_singleton {α β : Type} (f : α → β) (ds : List α) :
    (ds.map (fun d => [f d])).flatten = ds.map f := by
  induction ds with
  | nil => rfl
  | cons d ds ih => simp [ih]

/-- The code past the comparison, for a handler state whose cache holds a committee: when the
fetched committee differs from the cached one and both proofs succeed, `HandleEvents` returns
nil and writes exactly one batch per entry of `h.domains`, in that order; each batch is a
single rotate message with source `h.domainID` and the same proof pair; the destination
fields are the entries of `h.domains`. No handler built by `NewRotateHandler` is in such a
state. -/
theorem rotate_writes_one_batch_per_domain (h : RotateHandler W ε π) (startBlock endBlock : Int)
    (w w1 w2 w3 : W) (sc cur : Response SyncCommittee) (stepProof rotateProof : π)
    (hfetch : h.syncCommitteeFetcher.SyncCommittee "finalized" w = (.ok sc, w1))
    (hcur : h.currentSyncCommittee = some cur)
    (hne : sc.Data.String ≠ cur.Data.String)
    (hstep : h.prover.StepProof endBlock w1 = (.ok stepProof, w2))
    (hrot : h.prover.RotateProof endBlock w2 = (.ok rotateProof, w3)) :
    (h.HandleEvents startBlock endBlock w).result = .nil ∧
    RotateEvent.writes (h.HandleEvents startBlock endBlock w).trace =
      h.domains.map (fun d =>
        [NewEvmRotateMessage h.domainID d { RotateProof := rotateProof, StepProof := stepProof }]) ∧
    (RotateEvent.writes (h.HandleEvents startBlock endBlock w).trace).length = h.domains.length ∧
    (∀ batch ∈ RotateEvent.writes (h.HandleEvents startBlock endBlock w).trace,
      ∃ m, batch = [m] ∧ m.Source = h.domainID ∧ m.Type_ = MessageType.rotate ∧
        m.Data = { RotateProof := rotateProof, StepProof := stepProof }) ∧
    (RotateEvent.writes (h.HandleEvents startBlock endBlock w).trace).flatten.map
      (fun m => m.Destination) = h.domains ∧
    (((RotateEvent.writes (h.HandleEvents startBlock endBlock w).trace).flatten.map
      (fun m => m.Destination)).Nodup ↔ h.domains.Nodup) := by
  have hw : RotateEvent.writes (h.HandleEvents startBlock endBlock w).trace =
      h.domains.map (fun d =>
        [NewEvmRotateMessage h.domainID d
          { RotateProof := rotateProof, StepProof := stepProof }]) := by
    simp only [RotateHandler.HandleEvents, hfetch, hcur, if_neg hne, hstep, hrot]
    simp only [List.cons_append, List.nil_append, RotateEvent.writes]
    exact writes_map_send _ _
  have hres : (h.HandleEvents startBlock endBlock w).result = .nil := by
    simp only [RotateHandler.HandleEvents, hfetch, hcur, if_neg hne, hstep, hrot]
  have hdest : (RotateEvent.writes (h.HandleEvents startBlock endBlock w).trace).flatten.map
      (fun m => m.Destination) = h.domains := by
    rw [hw, flatten_map_singleton, List.map_map]
    simp [NewEvmRotateMessage, Function.comp_def]
  refine ⟨hres, hw, ?_, ?_, hdest, ?_⟩
  · rw [hw, List.length_map]
  · intro batch hb
    rw [hw] at hb
    obtain ⟨d, _, rfl⟩ := List.mem_map.mp hb
    exact ⟨_, rfl, rfl, rfl, rfl⟩
  · rw [hdest]

/-- The send loop exercised on a handler state with a cached committee and destinations
`[2, 3]`. -/
theorem rotate_writes_one_batch_per_domain_witness :
    (RotateEvent.writes
        ((Example.rotateHandler Example.proverOk "new" [2, 3]).HandleEvents 0 4 ()).trace).length
      = 2 :=
  (rotate_writes_one_batch_per_domain (Example.rotateHandler Example.proverOk "new" [2, 3])
    0 4 () () () () ⟨⟨"new"⟩⟩ ⟨⟨"old"⟩⟩ 7 9 rfl rfl (by decide) rfl rfl).2.2.1

/-- C4: when the fetched committee has the same canonical string as the cached one,
`HandleEvents` returns nil, makes no call to the prover and writes nothing. -/
theorem rotate_unchanged_no_work (h : RotateHandler W ε π) (startBlock endBlock : Int)
    (w w1 : W) (sc cur : Response SyncCommittee)
    (hfetch : h.syncCommitteeFetcher.SyncCommittee "finalized" w = (.ok sc, w1))
    (hcur : h.currentSyncCommittee = some cur)
    (heq : sc.Data.String = cur.Data.String) :
    (h.HandleEvents startBlock endBlock w).result = .nil ∧
    RotateEvent.proverCalls (h.HandleEvents startBlock endBlock w).trace = 0 ∧
    (∀ n, RotateEvent.StepProof n ∉ (h.HandleEvents startBlock endBlock w).trace) ∧
    (∀ n, RotateEvent.RotateProof n ∉ (h.HandleEvents startBlock endBlock w).trace) ∧
    RotateEvent.writes (h.HandleEvents startBlock endBlock w).trace = [] := by
  simp [RotateHandler.HandleEvents, hfetch, hcur, heq, RotateEvent.proverCalls,
    RotateEvent.writes]

/-- C4, exercised on a handler whose fetcher reports the cached committee. -/
theorem rotate_unchanged_no_work_witness :
    RotateEvent.proverCalls
        ((Example.rotateHandler Example.proverOk "old" [2, 3]).HandleEvents 0 4 ()).trace = 0 :=
  (rotate_unchanged_no_work (Example.rotateHandler Example.proverOk "old" [2, 3])
    0 4 () () ⟨⟨"old"⟩⟩ ⟨⟨"old"⟩⟩ rfl rfl rfl).2.1

/-- The code past the comparison, for a handler state whose cache holds a committee: when the
fetched committee differs from the cached one and `StepProof` fails, or `StepProof` succeeds
and `RotateProof` fails, `HandleEvents` returns the prover's error, writes nothing and leaves
`currentSyncCommittee` as it was. No handler built by `NewRotateHandler` is in such a
state. -/
theorem rotate_proof_failure (h : RotateHandler W ε π) (startBlock endBlock : Int)
    (w w1 : W) (sc cur : Response SyncCommittee) (e : ε)
    (hfetch : h.syncCommitteeFetcher.SyncCommittee "finalized" w = (.ok sc, w1))
    (hcur : h.currentSyncCommittee = some cur)
    (hne : sc.Data.String ≠ cur.Data.String)
    (hfail : (h.prover.StepProof endBlock w1).1 = .error e ∨
      ∃ stepProof, (h.prover.StepProof endBlock w1).1 = .ok stepProof ∧
        (h.prover.RotateProof endBlock (h.prover.StepProof endBlock w1).2).1 = .error e) :
    (h.HandleEvents startBlock endBlock w).result = .err e ∧
    RotateEvent.writes (h.HandleEvents startBlock endBlock w).trace = [] ∧
    (h.HandleEvents startBlock endBlock w).handler.currentSyncCommittee =
      h.currentSyncCommittee := by
  rcases hfail with hs | ⟨p, hs, hr⟩
  · rcases hst : h.prover.StepProof endBlock w1 with ⟨r, w2⟩
    rw [hst] at hs
    simp only at hs
    subst hs
    simp [RotateHandler.HandleEvents, hfetch, hcur, if_neg hne, hst, RotateEvent.writes]
  · rcases hst : h.prover.StepProof endBlock w1 with ⟨r, w2⟩
    rw [hst] at hs hr
    simp only at hs hr
    subst hs
    rcases hrt : h.prover.RotateProof endBlock w2 with ⟨r3, w3⟩
    rw [hrt] at hr
    simp only at hr
    subst hr
    simp [RotateHandler.HandleEvents, hfetch, hcur, if_neg hne, hst, hrt, RotateEvent.writes]

/-- The proof-failure path exercised on a handler state with a cached committee. -/
theorem rotate_proof_failure_witness :
    ((Example.rotateHandler Example.proverStepFails "new" [2, 3]).HandleEvents 0 4 ()).result
      = .err "step" :=
  (rotate_proof_failure (Example.rotateHandler Example.proverStepFails "new" [2, 3])
    0 4 () () ⟨⟨"new"⟩⟩ ⟨⟨"old"⟩⟩ "step" rfl rfl (by decide) (Or.inl rfl)).1

/-- C3 (the code at the failing input): on a handler fresh from `NewRotateHandler`, with any
list of destination domains, a committee fetch that succeeds and a prover whose two proofs
succeed, `HandleEvents` faults at the comparison with the nil `currentSyncCommittee`: it does
not return nil, requests no proof and writes no batch, where one batch per destination domain
is expected. -/
theorem rotate_fresh_handler_writes_nothing (domainID : Nat) (domains : List Nat)
    (fetch : W → Response SyncCommittee × W) (step rotate : Int → W → π × W)
    (startBlock endBlock : Int) (w : W) :
    ((NewRotateHandler domainID domains
        ⟨fun _ w => ((.ok (fetch w).1), (fetch w).2)⟩
        ⟨fun n w => ((.ok (step n w).1), (step n w).2),
         fun n w => ((.ok (rotate n w).1), (rotate n w).2)⟩ : RotateHandler W ε π).HandleEvents
          startBlock endBlock w).result ≠ .nil ∧
    RotateEvent.proverCalls
      ((NewRotateHandler domainID domains
        ⟨fun _ w => ((.ok (fetch w).1), (fetch w).2)⟩
        ⟨fun n w => ((.ok (step n w).1), (step n w).2),
         fun n w => ((.ok (rotate n w).1), (rotate n w).2)⟩ : RotateHandler W ε π).HandleEvents
          startBlock endBlock w).trace = 0 ∧
    RotateEvent.writes
      ((NewRotateHandler domainID domains
        ⟨fun _ w => ((.ok (fetch w).1), (fetch w).2)⟩
        ⟨fun n w => ((.ok (step n w).1), (step n w).2),
         fun n w => ((.ok (rotate n w).1), (rotate n w).2)⟩ : RotateHandler W ε π).HandleEvents
          startBlock endBlock w).trace = [] := by
  simp [RotateHandler.HandleEvents, NewRotateHandler, RotateEvent.proverCalls,
    RotateEvent.writes]

/-- C5 (the code at the failing input): on a handler fresh from `NewRotateHandler` whose
prover fails `StepProof` with `e`, a committee fetch that succeeds makes `HandleEvents` fault
at the comparison with the nil `currentSyncCommittee`: the outcome is a panic, not the
prover's error `e`, and `StepProof` is never requested. -/
theorem rotate_fresh_handler_step_failure (domainID : Nat) (domains : List Nat)
    (fetch : W → Response SyncCommittee × W) (e : ε) (rotate : Int → W → Except ε π × W)
    (startBlock endBlock : Int) (w : W) :
    ((NewRotateHandler domainID domains
        ⟨fun _ w => ((.ok (fetch w).1), (fetch w).2)⟩
        ⟨fun _ w => (.error e, w), rotate⟩).HandleEvents startBlock endBlock w).result
      = .panic ∧
    ((NewRotateHandler domainID domains
        ⟨fun _ w => ((.ok (fetch w).1), (fetch w).2)⟩
        ⟨fun _ w => (.error e, w), rotate⟩).HandleEvents startBlock endBlock w).result
      ≠ .err e ∧
    (∀ n, RotateEvent.StepProof n ∉
      ((NewRotateHandler domainID domains
        ⟨fun _ w => ((.ok (fetch w).1), (fetch w).2)⟩
        ⟨fun _ w => (.error e, w), rotate⟩).HandleEvents startBlock endBlock w).trace) := by
  simp [RotateHandler.HandleEvents, NewRotateHandler]

/-- C10 (the code at the failing input): a handler fresh from `NewRotateHandler` faults on
every successful committee fetch, because the comparison dereferences the nil
`currentSyncCommittee`; nothing is requested from the prover and nothing is written. -/
theorem rotate_fresh_handler_panics (domainID : Nat) (domains : List Nat) (prover : Prover W ε π)
    (fetch : W → Response SyncCommittee × W) (startBlock endBlock : Int) (w : W) :
    ((NewRotateHandler domainID domains ⟨fun _ w => ((.ok (fetch w).1), (fetch w).2)⟩
        prover).HandleEvents startBlock endBlock w).result = .panic := by
  simp [RotateHandler.HandleEvents, NewRotateHandler]

end Rotate

/-! ## Theorems: EVMListener -/

section Listener

variable {W ε : Type}

/-- Shape of the invocations made by `dispatch`: a run of `k` successful calls at positions
`idx, idx+1, ...`, followed, when the loop was left early, by the one call that did not return
nil. -/
theorem dispatch_calls (handlers : List (EventHandler W ε)) (idx : Nat) (s e : Int) (w : W) :
    ∃ k,
      ((dispatch handlers idx s e w).1 = .nil ∧ k = handlers.length ∧
        (dispatch handlers idx s e w).2.2 =
          (List.range' idx k).map (fun i => ListenerEvent.HandleEvents i s e .nil)) ∨
      ((dispatch handlers idx s e w).1 ≠ .nil ∧ k < handlers.length ∧
        (dispatch handlers idx s e w).2.2 =
          (List.range' idx k).map (fun i => ListenerEvent.HandleEvents i s e .nil) ++
            [ListenerEvent.HandleEvents (idx + k) s e (dispatch handlers idx s e w).1]) := by
  induction handlers generalizing idx w with
  | nil => exact ⟨0, Or.inl ⟨rfl, rfl, rfl⟩⟩
  | cons h rest ih =>
    rcases hh : h.HandleEvents s e w with ⟨r, w1⟩
    cases r with
    | nil =>
      obtain ⟨k, hk⟩ := ih (idx + 1) w1
      refine ⟨k + 1, ?_⟩
      simp only [dispatch, hh, List.length_cons, List.range'_succ, List.map_cons,
        List.cons_append]
      rcases hk with ⟨h1, h2, h3⟩ | ⟨h1, h2, h3⟩
      · exact Or.inl ⟨h1, by omega, by rw [h3]⟩
      · refine Or.inr ⟨h1, by omega, ?_⟩
        rw [h3]
        simp [Nat.add_assoc, Nat.add_comm 1 k]
    | err x =>
      refine ⟨0, Or.inr ?_⟩
      simp [dispatch, hh]
    | panic =>
      refine ⟨0, Or.inr ?_⟩
      simp [dispatch, hh]

theorem calls_map_handle (s e : Int) (r : Result ε) (is : List Nat) :
    ListenerEvent.calls (is.map (fun i => ListenerEvent.HandleEvents i s e r)) =
      is.map (fun i => (⟨i, s, e, r⟩ : Call ε)) := by
  induction is with
  | nil => rfl
  | cons i is ih => simp [ListenerEvent.calls, ih]

theorem calls_append (t u : List (ListenerEvent ε)) :
    ListenerEvent.calls (t ++ u) = ListenerEvent.calls t ++ ListenerEvent.calls u := by
  induction t with
  | nil => rfl
  | cons x t ih => cases x <;> simp [ListenerEvent.calls, ih]

theorem sleeps_append (t u : List (ListenerEvent ε)) :
    ListenerEvent.sleeps (t ++ u) = ListenerEvent.sleeps t ++ ListenerEvent.sleeps u := by
  induction t with
  | nil => rfl
  | cons x t ih => cases x <;> simp [ListenerEvent.sleeps, ih]

theorem sleeps_map_handle (s e : Int) (r : Result ε) (is : List Nat) :
    ListenerEvent.sleeps (is.map (fun i => ListenerEvent.HandleEvents i s e r)) = [] := by
  induction is with
  | nil => rfl
  | cons i is ih => simp [ListenerEvent.sleeps, ih]

/-- The invocations made by `dispatch`, as `Call` records. -/
theorem dispatch_call_list (handlers : List (EventHandler W ε)) (idx : Nat) (s e : Int) (w : W) :
    ∃ k,
      ((dispatch handlers idx s e w).1 = .nil ∧ k = handlers.length ∧
        ListenerEvent.calls (dispatch handlers idx s e w).2.2 =
          (List.range' idx k).map (fun i => (⟨i, s, e, .nil⟩ : Call ε))) ∨
      ((dispatch handlers idx s e w).1 ≠ .nil ∧ k < handlers.length ∧
        ListenerEvent.calls (dispatch handlers idx s e w).2.2 =
          (List.range' idx k).map (fun i => (⟨i, s, e, .nil⟩ : Call ε)) ++
            [⟨idx + k, s, e, (dispatch handlers idx s e w).1⟩]) := by
  obtain ⟨k, hk⟩ := dispatch_calls handlers idx s e w
  refine ⟨k, ?_⟩
  rcases hk with ⟨h1, h2, h3⟩ | ⟨h1, h2, h3⟩
  · exact Or.inl ⟨h1, h2, by rw [h3, calls_map_handle]⟩
  · refine Or.inr ⟨h1, h2, ?_⟩
    rw [h3, calls_append, calls_map_handle]
    simp [ListenerEvent.calls]

/-- The handlers never put the listener to sleep. -/
theorem dispatch_sleeps (handlers : List (EventHandler W ε)) (idx : Nat) (s e : Int) (w : W) :
    ListenerEvent.sleeps (dispatch handlers idx s e w).2.2 = [] := by
  obtain ⟨k, ⟨_, _, h3⟩ | ⟨_, _, h3⟩⟩ := dispatch_calls handlers idx s e w
  · rw [h3, sleeps_map_handle]
  · rw [h3, sleeps_append, sleeps_map_handle]
    simp [ListenerEvent.sleeps]

/-- An iteration that reaches the handlers: its trace, and what it leaves in
`latestCheckpoint`, in terms of `dispatch`. -/
theorem iteration_dispatch (l : EVMListener W ε) (latest : String) (w w1 w2 : W)
    (fc : Response Finality) (blk : Response VersionedSignedBeaconBlock) (n : Nat)
    (hfin : l.beaconProvider.Finality "finalized" w = (.ok fc, w1))
    (hnew : fc.Data.Finalized.Root.String ≠ latest)
    (hblk : l.beaconProvider.SignedBeaconBlock fc.Data.Justified.Root.String w1 = (.ok blk, w2))
    (hcap : blk.Data.Capella = some n) :
    (iteration l latest w).trace =
      [.Finality "finalized", .SignedBeaconBlock fc.Data.Justified.Root.String] ++
        (dispatch l.eventHandlers 0
          (int64OfUint64 n - bigIntInt64 l.blockInterval) (int64OfUint64 n) w2).2.2 ∧
    ((dispatch l.eventHandlers 0
        (int64OfUint64 n - bigIntInt64 l.blockInterval) (int64OfUint64 n) w2).1 = .nil →
      (iteration l latest w).latestCheckpoint = fc.Data.Finalized.Root.String ∧
      (iteration l latest w).branch = .handled) ∧
    ((dispatch l.eventHandlers 0
        (int64OfUint64 n - bigIntInt64 l.blockInterval) (int64OfUint64 n) w2).1 ≠ .nil →
      (iteration l latest w).latestCheckpoint = latest ∧
      (iteration l latest w).branch ≠ .handled) := by
  simp only [iteration, hfin, if_neg hnew, hblk, hcap]
  rcases hd : dispatch l.eventHandlers 0
      (int64OfUint64 n - bigIntInt64 l.blockInterval) (int64OfUint64 n) w2 with ⟨r, w3, t⟩
  cases r <;> simp

/-- C2: in an iteration that reaches the handlers, the handlers are invoked in registration
order, each at most once; an invocation that does not return nil is the last one of the
iteration; if some invocation did not return nil, `latestCheckpoint` keeps its value; if all
invocations returned nil, every registered handler was invoked and `latestCheckpoint` is the
string of the finalized root. Hence `latestCheckpoint` changes exactly when every registered
handler was invoked and returned nil. -/
theorem listener_dispatch_order_and_checkpoint (l : EVMListener W ε) (latest : String)
    (w w1 w2 : W) (fc : Response Finality) (blk : Response VersionedSignedBeaconBlock) (n : Nat)
    (hfin : l.beaconProvider.Finality "finalized" w = (.ok fc, w1))
    (hnew : fc.Data.Finalized.Root.String ≠ latest)
    (hblk : l.beaconProvider.SignedBeaconBlock fc.Data.Justified.Root.String w1 = (.ok blk, w2))
    (hcap : blk.Data.Capella = some n) :
    (ListenerEvent.calls (iteration l latest w).trace).map (fun c => c.handler) =
      List.range (ListenerEvent.calls (iteration l latest w).trace).length ∧
    (ListenerEvent.calls (iteration l latest w).trace).length ≤ l.eventHandlers.length ∧
    (∀ i c, (ListenerEvent.calls (iteration l latest w).trace)[i]? = some c → c.err ≠ .nil →
      i + 1 = (ListenerEvent.calls (iteration l latest w).trace).length) ∧
    ((∃ c ∈ ListenerEvent.calls (iteration l latest w).trace, c.err ≠ .nil) →
      (iteration l latest w).latestCheckpoint = latest) ∧
    ((∀ c ∈ ListenerEvent.calls (iteration l latest w).trace, c.err = .nil) →
      (ListenerEvent.calls (iteration l latest w).trace).length = l.eventHandlers.length ∧
      (iteration l latest w).latestCheckpoint = fc.Data.Finalized.Root.String) ∧
    ((iteration l latest w).latestCheckpoint ≠ latest ↔
      ((ListenerEvent.calls (iteration l latest w).trace).length = l.eventHandlers.length ∧
        ∀ c ∈ ListenerEvent.calls (iteration l latest w).trace, c.err = .nil)) := by
  obtain ⟨ht, hok, hbad⟩ := iteration_dispatch l latest w w1 w2 fc blk n hfin hnew hblk hcap
  have hcs : ListenerEvent.calls (iteration l latest w).trace =
      ListenerEvent.calls (dispatch l.eventHandlers 0
        (int64OfUint64 n - bigIntInt64 l.blockInterval) (int64OfUint64 n) w2).2.2 := by
    rw [ht, calls_append]
    simp [ListenerEvent.calls]
  obtain ⟨k, hk⟩ := dispatch_call_list l.eventHandlers 0
    (int64OfUint64 n - bigIntInt64 l.blockInterval) (int64OfUint64 n) w2
  rw [hcs]
  rcases hk with ⟨h1, h2, h3⟩ | ⟨h1, h2, h3⟩
  · have hall : ∀ c ∈ ListenerEvent.calls (dispatch l.eventHandlers 0
        (int64OfUint64 n - bigIntInt64 l.blockInterval) (int64OfUint64 n) w2).2.2,
        c.err = .nil := by
      intro c hc
      rw [h3] at hc
      obtain ⟨i, _, rfl⟩ := List.mem_map.mp hc
      rfl
    have hlen : (ListenerEvent.calls (dispatch l.eventHandlers 0
        (int64OfUint64 n - bigIntInt64 l.blockInterval) (int64OfUint64 n) w2).2.2).length =
        l.eventHandlers.length := by
      rw [h3, List.length_map, List.length_range', h2]
    refine ⟨?_, by omega, ?_, ?_, ?_, ?_⟩
    · rw [hlen, h3, List.map_map, List.range_eq_range', ← h2]
      simp [Function.comp_def]
    · intro i c hc hne
      exact absurd (hall c (List.mem_iff_getElem?.mpr ⟨i, hc⟩)) hne
    · rintro ⟨c, hc, hne⟩
      exact absurd (hall c hc) hne
    · intro _
      exact ⟨hlen, (hok h1).1⟩
    · constructor
      · intro _
        exact ⟨hlen, hall⟩
      · intro _
        rw [(hok h1).1]
        exact hnew
  · have hlast : (⟨0 + k, int64OfUint64 n - bigIntInt64 l.blockInterval, int64OfUint64 n,
        (dispatch l.eventHandlers 0 (int64OfUint64 n - bigIntInt64 l.blockInterval)
          (int64OfUint64 n) w2).1⟩ : Call ε) ∈
        ListenerEvent.calls (dispatch l.eventHandlers 0
          (int64OfUint64 n - bigIntInt64 l.blockInterval) (int64OfUint64 n) w2).2.2 := by
      rw [h3]
      simp
    have hlen : (ListenerEvent.calls (dispatch l.eventHandlers 0
        (int64OfUint64 n - bigIntInt64 l.blockInterval) (int64OfUint64 n) w2).2.2).length =
        k + 1 := by
      rw [h3]
      simp
    have hnotall : ¬ ∀ c ∈ ListenerEvent.calls (dispatch l.eventHandlers 0
        (int64OfUint64 n - bigIntInt64 l.blockInterval) (int64OfUint64 n) w2).2.2,
        c.err = .nil := fun hall => h1 (hall _ hlast)
    refine ⟨?_, by omega, ?_, ?_, ?_, ?_⟩
    · rw [hlen, h3, List.range_succ, List.range_eq_range']
      simp [Function.comp_def]
    · intro i c hc hne
      rw [hlen]
      rw [h3, List.getElem?_append] at hc
      by_cases hi : i < k
      · simp only [List.length_map, List.length_range', hi, if_true] at hc
        rw [List.getElem?_map, List.getElem?_range' _ _ hi] at hc
        simp only [Option.map_some', Option.some.injEq] at hc
        subst hc
        exact absurd rfl hne
      · have hik : i = k := by
          have hlt := (List.getElem?_eq_some.mp (by
            rw [h3, List.getElem?_append]
            exact hc : (ListenerEvent.calls (dispatch l.eventHandlers 0
              (int64OfUint64 n - bigIntInt64 l.blockInterval) (int64OfUint64 n) w2).2.2)[i]? =
                some c)).1
          omega
        omega
    · intro _
      exact (hbad h1).1
    · intro hall
      exact absurd hall hnotall
    · constructor
      · intro hadv
        exact absurd (hbad h1).1 hadv
      · rintro ⟨_, hall⟩
        exact absurd hall hnotall

/-- C2, exercised on a listener with three handlers of which the second fails. -/
theorem listener_dispatch_order_and_checkpoint_witness :
    (ListenerEvent.calls (iteration
        (Example.listener (Example.beacon (fun _ => "0xaa") (.ok (some 10)))
          [Example.okHandler, Example.failingHandler, Example.okHandler] 3)
        "0x00" 0).trace).length ≤ 3 :=
  (listener_dispatch_order_and_checkpoint
    (Example.listener (Example.beacon (fun _ => "0xaa") (.ok (some 10)))
      [Example.okHandler, Example.failingHandler, Example.okHandler] 3)
    "0x00" 0 1 1 ⟨⟨⟨⟨"0xaa"⟩⟩, ⟨⟨"0x11"⟩⟩⟩⟩ ⟨⟨some 10⟩⟩ 10 rfl (by decide) rfl rfl).2.1

theorem int64OfUint64_small (n : Nat) (hn : n < 2 ^ 63) : int64OfUint64 n = (n : Int) := by
  unfold int64OfUint64 wrapInt64
  norm_num at hn ⊢
  omega

theorem bigIntInt64_small (b : Int) (h0 : 0 ≤ b) (hb : b < 2 ^ 63) : bigIntInt64 b = b := by
  obtain ⟨m, rfl⟩ := Int.eq_ofNat_of_zero_le h0
  unfold bigIntInt64 wrapInt64
  simp only [Int.natAbs_ofNat]
  norm_num at hb ⊢
  have hm : ¬ ((m : Int) < 0) := by omega
  rw [if_neg hm]
  omega

/-- C6 (as stated, refuted): for the `uint64` block number `2^63` and block interval `0`, the
single registered handler receives `endBlock = startBlock = -2^63`, not `2^63`; and for block
number `10` and block interval `2^64` it receives `startBlock = 10`, not `10 - 2^64`. -/
theorem listener_end_block_wraps :
    ((2 : Nat) ^ 63 < 2 ^ 64 ∧
      ListenerEvent.calls (iteration
          (Example.listener (Example.beacon (fun _ => "0xaa") (.ok (some (2 ^ 63))))
            [Example.okHandler] 0)
          "0x00" 0).trace = [⟨0, -(2 ^ 63), -(2 ^ 63), .nil⟩] ∧
      (-(2 ^ 63) : Int) ≠ ((2 ^ 63 : Nat) : Int)) ∧
    ((0 : Int) ≤ 2 ^ 64 ∧
      ListenerEvent.calls (iteration
          (Example.listener (Example.beacon (fun _ => "0xaa") (.ok (some 10)))
            [Example.okHandler] (2 ^ 64))
          "0x00" 0).trace = [⟨0, 10, 10, .nil⟩] ∧
      (10 : Int) ≠ ((10 : Nat) : Int) - 2 ^ 64) := by
  decide

/-- C6 (amended): in an iteration that reaches the handlers, all invoked handlers receive the
same `(startBlock, endBlock)` pair; and when the block number `n` is below `2^63` and the
block interval `b` satisfies `0 ≤ b < 2^63`, that pair is `(n - b, n)` exactly. -/
theorem listener_block_range (l : EVMListener W ε) (latest : String)
    (w w1 w2 : W) (fc : Response Finality) (blk : Response VersionedSignedBeaconBlock) (n : Nat)
    (hfin : l.beaconProvider.Finality "finalized" w = (.ok fc, w1))
    (hnew : fc.Data.Finalized.Root.String ≠ latest)
    (hblk : l.beaconProvider.SignedBeaconBlock fc.Data.Justified.Root.String w1 = (.ok blk, w2))
    (hcap : blk.Data.Capella = some n) :
    (∀ c ∈ ListenerEvent.calls (iteration l latest w).trace,
      ∀ d ∈ ListenerEvent.calls (iteration l latest w).trace,
        c.startBlock = d.startBlock ∧ c.endBlock = d.endBlock) ∧
    (n < 2 ^ 63 → 0 ≤ l.blockInterval → l.blockInterval < 2 ^ 63 →
      ∀ c ∈ ListenerEvent.calls (iteration l latest w).trace,
        c.endBlock = (n : Int) ∧ c.startBlock = (n : Int) - l.blockInterval) := by
  obtain ⟨ht, -, -⟩ := iteration_dispatch l latest w w1 w2 fc blk n hfin hnew hblk hcap
  have hcs : ListenerEvent.calls (iteration l latest w).trace =
      ListenerEvent.calls (dispatch l.eventHandlers 0
        (int64OfUint64 n - bigIntInt64 l.blockInterval) (int64OfUint64 n) w2).2.2 := by
    rw [ht, calls_append]
    simp [ListenerEvent.calls]
  have hargs : ∀ c ∈ ListenerEvent.calls (iteration l latest w).trace,
      c.endBlock = int64OfUint64 n ∧
        c.startBlock = int64OfUint64 n - bigIntInt64 l.blockInterval := by
    intro c hc
    rw [hcs] at hc
    obtain ⟨k, ⟨_, _, h3⟩ | ⟨_, _, h3⟩⟩ := dispatch_call_list l.eventHandlers 0
      (int64OfUint64 n - bigIntInt64 l.blockInterval) (int64OfUint64 n) w2
    · rw [h3] at hc
      obtain ⟨i, _, rfl⟩ := List.mem_map.mp hc
      exact ⟨rfl, rfl⟩
    · rw [h3] at hc
      rcases List.mem_append.mp hc with hc | hc
      · obtain ⟨i, _, rfl⟩ := List.mem_map.mp hc
        exact ⟨rfl, rfl⟩
      · rw [List.mem_singleton] at hc
        subst hc
        exact ⟨rfl, rfl⟩
  constructor
  · intro c hc d hd
    rw [(hargs c hc).1, (hargs c hc).2, (hargs d hd).1, (hargs d hd).2]
    exact ⟨rfl, rfl⟩
  · intro hn h0 hb c hc
    rw [(hargs c hc).1, (hargs c hc).2, int64OfUint64_small n hn,
      bigIntInt64_small l.blockInterval h0 hb]
    exact ⟨rfl, rfl⟩

/-- C6 (amended), exercised on block number 10 and block interval 3. -/
theorem listener_block_range_witness :
    (⟨1, 7, 10, .nil⟩ : Call String) ∈ ListenerEvent.calls (iteration
        (Example.listener (Example.beacon (fun _ => "0xaa") (.ok (some 10)))
          [Example.okHandler, Example.okHandler] 3)
        "0x00" 0).trace ∧
    ((⟨1, 7, 10, .nil⟩ : Call String).endBlock = ((10 : Nat) : Int) ∧
      (⟨1, 7, 10, .nil⟩ : Call String).startBlock = ((10 : Nat) : Int) - 3) :=
  ⟨by decide,
   (listener_block_range
    (Example.listener (Example.beacon (fun _ => "0xaa") (.ok (some 10)))
      [Example.okHandler, Example.okHandler] 3)
    "0x00" 0 1 1 ⟨⟨⟨⟨"0xaa"⟩⟩, ⟨⟨"0x11"⟩⟩⟩⟩ ⟨⟨some 10⟩⟩ 10 rfl (by decide) rfl rfl).2
    (by decide) (by decide) (by decide) ⟨1, 7, 10, .nil⟩ (by decide)⟩

/-- C8 (the code at the failing input): an iteration whose only handler returns an error
issues the `Finality` and `SignedBeaconBlock` requests, invokes the handler and ends there:
it performs no sleep, where one sleep of `retryInterval` is expected. -/
theorem listener_handler_error_no_sleep :
    (iteration
        (Example.listener (Example.beacon (fun _ => "0xaa") (.ok (some 10)))
          [Example.failingHandler] 3)
        "0x00" 0).trace =
      [.Finality "finalized", .SignedBeaconBlock "0x11",
       .HandleEvents 0 7 10 (.err "boom")] ∧
    ListenerEvent.calls (iteration
        (Example.listener (Example.beacon (fun _ => "0xaa") (.ok (some 10)))
          [Example.failingHandler] 3)
        "0x00" 0).trace = [⟨0, 7, 10, .err "boom"⟩] ∧
    ListenerEvent.sleeps (iteration
        (Example.listener (Example.beacon (fun _ => "0xaa") (.ok (some 10)))
          [Example.failingHandler] 3)
        "0x00" 0).trace = [] := by
  decide

/-- The sleeps of one iteration, path by path: an iteration in which `Finality` fails, or in
which `SignedBeaconBlock` fails, issues one `Finality` request and ends with exactly one
sleep of `retryInterval`; an iteration that reaches the handlers performs no sleep, whether
every handler succeeds or one of them returns an error. -/
theorem listener_sleeps (l : EVMListener W ε) (latest : String) (w : W) :
    (∀ e w1, l.beaconProvider.Finality "finalized" w = (.error e, w1) →
      (iteration l latest w).trace = [.Finality "finalized", .Sleep l.retryInterval] ∧
      ListenerEvent.sleeps (iteration l latest w).trace = [l.retryInterval]) ∧
    (∀ fc w1 e w2, l.beaconProvider.Finality "finalized" w = (.ok fc, w1) →
      fc.Data.Finalized.Root.String ≠ latest →
      l.beaconProvider.SignedBeaconBlock fc.Data.Justified.Root.String w1 = (.error e, w2) →
      (iteration l latest w).trace =
        [.Finality "finalized", .SignedBeaconBlock fc.Data.Justified.Root.String,
         .Sleep l.retryInterval] ∧
      ListenerEvent.sleeps (iteration l latest w).trace = [l.retryInterval]) ∧
    (∀ fc w1 blk w2 n, l.beaconProvider.Finality "finalized" w = (.ok fc, w1) →
      fc.Data.Finalized.Root.String ≠ latest →
      l.beaconProvider.SignedBeaconBlock fc.Data.Justified.Root.String w1 = (.ok blk, w2) →
      blk.Data.Capella = some n →
      ListenerEvent.sleeps (iteration l latest w).trace = []) := by
  refine ⟨?_, ?_, ?_⟩
  · intro e w1 hfin
    simp [iteration, hfin, ListenerEvent.sleeps]
  · intro fc w1 e w2 hfin hnew hblk
    simp [iteration, hfin, hnew, hblk, ListenerEvent.sleeps]
  · intro fc w1 blk w2 n hfin hnew hblk hcap
    obtain ⟨ht, -, -⟩ := iteration_dispatch l latest w w1 w2 fc blk n hfin hnew hblk hcap
    rw [ht, sleeps_append, dispatch_sleeps]
    simp [ListenerEvent.sleeps]

/-- The sleeps of an iteration with a failing `Finality`, with a failing
`SignedBeaconBlock` and with a failing handler. -/
theorem listener_sleeps_witness :
    ListenerEvent.sleeps (iteration
        (Example.listener Example.beaconDown [Example.okHandler] 3) "0x00" 0).trace = [5] ∧
    ListenerEvent.sleeps (iteration
        (Example.listener (Example.beacon (fun _ => "0xaa") (.error "gone"))
          [Example.okHandler] 3) "0x00" 0).trace = [5] ∧
    ListenerEvent.sleeps (iteration
        (Example.listener (Example.beacon (fun _ => "0xaa") (.ok (some 10)))
          [Example.failingHandler] 3) "0x00" 0).trace = [] :=
  ⟨((listener_sleeps (Example.listener Example.beaconDown [Example.okHandler] 3) "0x00" 0).1
      "down" 1 rfl).2,
   ((listener_sleeps (Example.listener (Example.beacon (fun _ => "0xaa") (.error "gone"))
      [Example.okHandler] 3) "0x00" 0).2.1
      ⟨⟨⟨⟨"0xaa"⟩⟩, ⟨⟨"0x11"⟩⟩⟩⟩ 1 "gone" 1 rfl (by decide) rfl).2,
   (listener_sleeps (Example.listener (Example.beacon (fun _ => "0xaa") (.ok (some 10)))
      [Example.failingHandler] 3) "0x00" 0).2.2
      ⟨⟨⟨⟨"0xaa"⟩⟩, ⟨⟨"0x11"⟩⟩⟩⟩ 1 ⟨⟨some 10⟩⟩ 1 10 rfl (by decide) rfl rfl⟩

/-! ### Runs of the loop -/

theorem loop_head (l : EVMListener W ε) (ctxDone : W → Bool) (fuel : Nat) (latest : String)
    (w : W) (t : Tick W ε) (h : (loop l ctxDone fuel latest w)[0]? = some t) :
    t.latestCheckpoint = latest ∧ t.world = w ∧ t.step = iteration l latest w := by
  cases fuel with
  | zero => simp [loop] at h
  | succ f =>
    simp only [loop] at h
    by_cases hd : ctxDone w = true
    · simp [hd] at h
    · simp only [hd, Bool.false_eq_true, if_false, List.getElem?_cons_zero,
        Option.some.injEq] at h
      subst h
      exact ⟨rfl, rfl, rfl⟩

/-- Every recorded tick is an iteration run from the checkpoint and world recorded at its
start. -/
theorem loop_tick (l : EVMListener W ε) (ctxDone : W → Bool) (fuel : Nat) :
    ∀ (latest : String) (w : W) (i : Nat) (t : Tick W ε),
      (loop l ctxDone fuel latest w)[i]? = some t →
      t.step = iteration l t.latestCheckpoint t.world := by
  induction fuel with
  | zero => intro latest w i t h; simp [loop] at h
  | succ f ih =>
    intro latest w i t h
    simp only [loop] at h
    by_cases hd : ctxDone w = true
    · simp [hd] at h
    · simp only [hd, Bool.false_eq_true, if_false] at h
      cases i with
      | zero =>
        simp only [List.getElem?_cons_zero, Option.some.injEq] at h
        subst h
        rfl
      | succ j =>
        rw [List.getElem?_cons_succ] at h
        by_cases hp : (iteration l latest w).branch = .panicked
        · simp [hp] at h
        · rw [if_neg hp] at h
          exact ih _ _ j t h

/-- Consecutive ticks are chained: the next tick starts from the checkpoint and world the
previous one left. -/
theorem loop_next (l : EVMListener W ε) (ctxDone : W → Bool) (fuel : Nat) :
    ∀ (latest : String) (w : W) (i : Nat) (t u : Tick W ε),
      (loop l ctxDone fuel latest w)[i]? = some t →
      (loop l ctxDone fuel latest w)[i + 1]? = some u →
      u.latestCheckpoint = t.step.latestCheckpoint ∧ u.world = t.step.world := by
  induction fuel with
  | zero => intro latest w i t u h; simp [loop] at h
  | succ f ih =>
    intro latest w i t u h h2
    simp only [loop] at h h2
    by_cases hd : ctxDone w = true
    · simp [hd] at h
    · simp only [hd, Bool.false_eq_true, if_false] at h h2
      rw [List.getElem?_cons_succ] at h2
      by_cases hp : (iteration l latest w).branch = .panicked
      · simp [hp] at h2
      · rw [if_neg hp] at h2
        cases i with
        | zero =>
          simp only [List.getElem?_cons_zero, Option.some.injEq] at h
          subst h
          obtain ⟨h1, h3, -⟩ := loop_head l ctxDone f _ _ u h2
          exact ⟨h1, h3⟩
        | succ j =>
          rw [List.getElem?_cons_succ, if_neg hp] at h
          exact ih _ _ j t u h h2

/-- An iteration whose `Finality` request reports the last-seen root does nothing but sleep. -/
theorem iteration_unchanged (l : EVMListener W ε) (latest : String) (w w1 : W)
    (fc : Response Finality)
    (hfin : l.beaconProvider.Finality "finalized" w = (.ok fc, w1))
    (hsame : fc.Data.Finalized.Root.String = latest) :
    (iteration l latest w).trace = [.Finality "finalized", .Sleep l.retryInterval] ∧
    (iteration l latest w).latestCheckpoint = latest := by
  simp [iteration, hfin, hsame]

/-- Only the `handled` path changes `latestCheckpoint`. -/
theorem iteration_keeps_checkpoint (l : EVMListener W ε) (latest : String) (w : W)
    (hb : (iteration l latest w).branch ≠ .handled) :
    (iteration l latest w).latestCheckpoint = latest := by
  revert hb
  unfold iteration
  split
  · simp
  · split
    · simp
    · split
      · simp
      · split
        · simp
        · dsimp only
          split <;> simp

/-- After an idle or fully handled iteration, `latestCheckpoint` is the finalized root that
the iteration saw. -/
theorem iteration_checkpoint_of_done (l : EVMListener W ε) (latest : String) (w w1 : W)
    (fc : Response Finality)
    (hfin : l.beaconProvider.Finality "finalized" w = (.ok fc, w1))
    (hb : (iteration l latest w).branch = .unchanged ∨ (iteration l latest w).branch = .handled) :
    (iteration l latest w).latestCheckpoint = fc.Data.Finalized.Root.String := by
  revert hb
  simp only [iteration, hfin]
  split
  · rename_i h
    simp [h]
  · split
    · simp
    · split
      · simp
      · split <;> simp

/-- C1 (as stated, refuted): with a handler that returns an error, two consecutive iterations
see the same finalized root and the handler is invoked again in the second one. -/
theorem listener_retries_same_root :
    ∃ (t u : Tick Nat String) (f1 f2 : Response Finality) (w1 w2 : Nat),
      (ListenToEvents (Example.listener (Example.beacon (fun _ => "0xaa") (.ok (some 10)))
        [Example.failingHandler] 3) (fun _ => false) 0 2 0)[0]? = some t ∧
      (ListenToEvents (Example.listener (Example.beacon (fun _ => "0xaa") (.ok (some 10)))
        [Example.failingHandler] 3) (fun _ => false) 0 2 0)[1]? = some u ∧
      (Example.beacon (fun _ => "0xaa") (.ok (some 10))).Finality "finalized" t.world
        = (.ok f1, w1) ∧
      (Example.beacon (fun _ => "0xaa") (.ok (some 10))).Finality "finalized" u.world
        = (.ok f2, w2) ∧
      f1.Data.Finalized.Root.String = f2.Data.Finalized.Root.String ∧
      ListenerEvent.calls u.step.trace = [⟨0, 7, 10, .err "boom"⟩] :=
  ⟨_, _, _, _, _, _, rfl, rfl, rfl, rfl, rfl, by decide⟩

/-- C1 (amended): for two consecutive iterations in which `Finality` succeeds and reports the
same finalized root, no handler is invoked during the second iteration provided the first
one was idle or completed with every handler succeeding, so that it did not end in a failed
block resolution or a handler error. -/
theorem listener_unchanged_root_idle (l : EVMListener W ε) (ctxDone : W → Bool) (epoch : Int)
    (fuel : Nat) (w0 : W) (i : Nat) (t u : Tick W ε) (f1 f2 : Response Finality) (w1 w2 : W)
    (ht : (ListenToEvents l ctxDone epoch fuel w0)[i]? = some t)
    (hu : (ListenToEvents l ctxDone epoch fuel w0)[i + 1]? = some u)
    (hf1 : l.beaconProvider.Finality "finalized" t.world = (.ok f1, w1))
    (hf2 : l.beaconProvider.Finality "finalized" u.world = (.ok f2, w2))
    (hroot : f1.Data.Finalized.Root.String = f2.Data.Finalized.Root.String)
    (hdone : t.step.branch = .unchanged ∨ t.step.branch = .handled) :
    ListenerEvent.calls u.step.trace = [] := by
  have hts := loop_tick l ctxDone fuel _ _ i t ht
  have hus := loop_tick l ctxDone fuel _ _ (i + 1) u hu
  obtain ⟨hlat, -⟩ := loop_next l ctxDone fuel _ _ i t u ht hu
  rw [hts] at hdone hlat
  have h1 := iteration_checkpoint_of_done l t.latestCheckpoint t.world w1 f1 hf1 hdone
  have hsame : f2.Data.Finalized.Root.String = u.latestCheckpoint := by
    rw [hlat, h1, hroot]
  rw [hus, (iteration_unchanged l u.latestCheckpoint u.world w2 f2 hf2 hsame).1]
  rfl

/-- C1 (amended), exercised on a run whose first iteration handles root `0xaa` and whose
second iteration sees `0xaa` again. -/
theorem listener_unchanged_root_idle_witness :
    ListenerEvent.calls (iteration
      (Example.listener (Example.beacon (fun _ => "0xaa") (.ok (some 10)))
        [Example.okHandler] 3) "0xaa" 1).trace = [] :=
  listener_unchanged_root_idle
    (Example.listener (Example.beacon (fun _ => "0xaa") (.ok (some 10))) [Example.okHandler] 3)
    (fun _ => false) 0 2 0 0
    ⟨"0x0000000000000000000000000000000000000000000000000000000000000000", 0,
      iteration (Example.listener (Example.beacon (fun _ => "0xaa") (.ok (some 10)))
        [Example.okHandler] 3)
        "0x0000000000000000000000000000000000000000000000000000000000000000" 0⟩
    ⟨"0xaa", 1,
      iteration (Example.listener (Example.beacon (fun _ => "0xaa") (.ok (some 10)))
        [Example.okHandler] 3) "0xaa" 1⟩
    ⟨⟨⟨⟨"0xaa"⟩⟩, ⟨⟨"0x11"⟩⟩⟩⟩ ⟨⟨⟨⟨"0xaa"⟩⟩, ⟨⟨"0x11"⟩⟩⟩⟩ 1 2
    rfl rfl rfl rfl rfl (Or.inr (by decide))

/-- C7 (as stated, refuted): the roots `0xaa`, `0xbb`, `0xaa` are reported in turn and every
handler succeeds; the listener handles `0xaa`, then advances to `0xbb`, and when `0xaa` is
reported again the handler is invoked for it once more. -/
theorem listener_reprocesses_old_root :
    ∃ (t0 t1 t2 : Tick Nat String) (f0 f1 f2 : Response Finality) (w0 w1 w2 : Nat),
      (ListenToEvents (Example.listener (Example.beacon Example.rootsABA (.ok (some 10)))
        [Example.okHandler] 3) (fun _ => false) 0 3 0)[0]? = some t0 ∧
      (ListenToEvents (Example.listener (Example.beacon Example.rootsABA (.ok (some 10)))
        [Example.okHandler] 3) (fun _ => false) 0 3 0)[1]? = some t1 ∧
      (ListenToEvents (Example.listener (Example.beacon Example.rootsABA (.ok (some 10)))
        [Example.okHandler] 3) (fun _ => false) 0 3 0)[2]? = some t2 ∧
      (Example.beacon Example.rootsABA (.ok (some 10))).Finality "finalized" t0.world
        = (.ok f0, w0) ∧
      (Example.beacon Example.rootsABA (.ok (some 10))).Finality "finalized" t1.world
        = (.ok f1, w1) ∧
      (Example.beacon Example.rootsABA (.ok (some 10))).Finality "finalized" t2.world
        = (.ok f2, w2) ∧
      t0.step.branch = .handled ∧ t1.step.branch = .handled ∧
      f1.Data.Finalized.Root.String ≠ f0.Data.Finalized.Root.String ∧
      f2.Data.Finalized.Root.String = f0.Data.Finalized.Root.String ∧
      ListenerEvent.calls t2.step.trace = [⟨0, 7, 10, .nil⟩] :=
  ⟨_, _, _, _, _, _, _, _, _, rfl, rfl, rfl, rfl, rfl, rfl, by decide, by decide, by decide,
    by decide, by decide⟩

/-- C7 (amended): once an iteration has completed with every handler succeeding for a
finalized root `R`, no handler is invoked in a later iteration that sees `R`, as long as no
iteration in between has completed with every handler succeeding (which would move the
last-seen root to another value; the listener remembers only the last-seen root). -/
theorem listener_no_reprocess_until_advanced (l : EVMListener W ε) (ctxDone : W → Bool)
    (epoch : Int) (fuel : Nat) (w0 : W) (i k : Nat) (ti tk : Tick W ε)
    (fi fk : Response Finality) (wi wk : W)
    (hi : (ListenToEvents l ctxDone epoch fuel w0)[i]? = some ti)
    (hk : (ListenToEvents l ctxDone epoch fuel w0)[k]? = some tk)
    (hik : i < k)
    (hfi : l.beaconProvider.Finality "finalized" ti.world = (.ok fi, wi))
    (hbi : ti.step.branch = .handled)
    (hbetween : ∀ j tj, i < j → j < k →
      (ListenToEvents l ctxDone epoch fuel w0)[j]? = some tj → tj.step.branch ≠ .handled)
    (hfk : l.beaconProvider.Finality "finalized" tk.world = (.ok fk, wk))
    (hroot : fk.Data.Finalized.Root.String = fi.Data.Finalized.Root.String) :
    ListenerEvent.calls tk.step.trace = [] := by
  have hklen : k < (ListenToEvents l ctxDone epoch fuel w0).length :=
    (List.getElem?_eq_some.mp hk).1
  have key : ∀ d, i + 1 + d ≤ k → ∀ tj,
      (ListenToEvents l ctxDone epoch fuel w0)[i + 1 + d]? = some tj →
      tj.latestCheckpoint = fi.Data.Finalized.Root.String := by
    intro d
    induction d with
    | zero =>
      intro _ tj hj
      have hts := loop_tick l ctxDone fuel _ _ i ti hi
      obtain ⟨hlat, -⟩ := loop_next l ctxDone fuel _ _ i ti tj hi hj
      rw [hts] at hbi hlat
      rw [hlat]
      exact iteration_checkpoint_of_done l ti.latestCheckpoint ti.world wi fi hfi (Or.inr hbi)
    | succ d ih =>
      intro hle tj hj
      have hlt : i + 1 + d < (ListenToEvents l ctxDone epoch fuel w0).length := by omega
      have hp : (ListenToEvents l ctxDone epoch fuel w0)[i + 1 + d]? =
          some ((ListenToEvents l ctxDone epoch fuel w0)[i + 1 + d]) :=
        List.getElem?_eq_getElem hlt
      have hprev := ih (by omega) _ hp
      have hnb := hbetween (i + 1 + d) _ (by omega) (by omega) hp
      have hps := loop_tick l ctxDone fuel _ _ (i + 1 + d) _ hp
      obtain ⟨hlat, -⟩ := loop_next l ctxDone fuel _ _ (i + 1 + d) _ tj hp hj
      rw [hps] at hnb hlat
      rw [hlat, iteration_keeps_checkpoint l _ _ hnb, hprev]
  have hk2 : (ListenToEvents l ctxDone epoch fuel w0)[i + 1 + (k - i - 1)]? = some tk := by
    have : i + 1 + (k - i - 1) = k := by omega
    rw [this]
    exact hk
  have hlatk := key (k - i - 1) (by omega) tk hk2
  have hks := loop_tick l ctxDone fuel _ _ k tk hk
  have hsame : fk.Data.Finalized.Root.String = tk.latestCheckpoint := by
    rw [hlatk, hroot]
  rw [hks, (iteration_unchanged l tk.latestCheckpoint tk.world wk fk hfk hsame).1]
  rfl

/-- C7 (amended), exercised on the run that sees `0xaa` twice in a row. -/
theorem listener_no_reprocess_until_advanced_witness :
    ListenerEvent.calls (iteration
      (Example.listener (Example.beacon (fun _ => "0xaa") (.ok (some 10)))
        [Example.okHandler] 3) "0xaa" 1).trace = [] :=
  listener_no_reprocess_until_advanced
    (Example.listener (Example.beacon (fun _ => "0xaa") (.ok (some 10))) [Example.okHandler] 3)
    (fun _ => false) 0 2 0 0 1
    ⟨"0x0000000000000000000000000000000000000000000000000000000000000000", 0,
      iteration (Example.listener (Example.beacon (fun _ => "0xaa") (.ok (some 10)))
        [Example.okHandler] 3)
        "0x0000000000000000000000000000000000000000000000000000000000000000" 0⟩
    ⟨"0xaa", 1,
      iteration (Example.listener (Example.beacon (fun _ => "0xaa") (.ok (some 10)))
        [Example.okHandler] 3) "0xaa" 1⟩
    ⟨⟨⟨⟨"0xaa"⟩⟩, ⟨⟨"0x11"⟩⟩⟩⟩ ⟨⟨⟨⟨"0xaa"⟩⟩, ⟨⟨"0x11"⟩⟩⟩⟩ 1 2
    rfl rfl (by decide) rfl (by decide)
    (fun j _ h1 h2 => absurd h2 (by omega)) rfl rfl

end Listener

/-! ## Theorems: DepositEventHandler -/

section Deposit

variable {W ε δ : Type}

theorem length_filterMap_eq_countP {α β : Type} (f : α → Option β) (l : List α) :
    (l.filterMap f).length = l.countP (fun a => (f a).isSome) := by
  induction l with
  | nil => rfl
  | cons a l ih =>
    cases h : f a <;> simp [List.filterMap_cons, List.countP_cons, h, ih]

/-- C9: when the fetch succeeds, `HandleEvents` returns nil whatever the logs decode to; if at
least one log decodes, exactly one batch is written, holding one message per decoded log in
the order of the logs; if no log decodes, nothing is written; and for two logs of which the
first does not decode and the second does, exactly one batch of length 1 is written. -/
theorem deposit_handle_events (eh : DepositEventHandler W ε δ) (startBlock endBlock : Int)
    (w w1 : W) (logs : List Log)
    (hfetch : eh.eventFetcher.FetchEventLogs eh.bridgeAddress eh.DepositSig startBlock endBlock w
      = (.ok logs, w1)) :
    (eh.HandleEvents startBlock endBlock w).result = .nil ∧
    ((∃ l ∈ logs, (eh.unpackDeposit l).isSome) →
      DepositEvent.writes (eh.HandleEvents startBlock endBlock w).trace =
        [(logs.filterMap eh.unpackDeposit).map eh.newMessage] ∧
      ((logs.filterMap eh.unpackDeposit).map eh.newMessage).length =
        logs.countP (fun l => (eh.unpackDeposit l).isSome)) ∧
    ((∀ l ∈ logs, eh.unpackDeposit l = none) →
      DepositEvent.writes (eh.HandleEvents startBlock endBlock w).trace = []) ∧
    (∀ l1 l2 d, logs = [l1, l2] → eh.unpackDeposit l1 = none → eh.unpackDeposit l2 = some d →
      DepositEvent.writes (eh.HandleEvents startBlock endBlock w).trace = [[eh.newMessage d]]) := by
  have hres : (eh.HandleEvents startBlock endBlock w).result = .nil := by
    simp only [DepositEventHandler.HandleEvents, hfetch]
    split <;> rfl
  have hsome : (∃ l ∈ logs, (eh.unpackDeposit l).isSome) →
      DepositEvent.writes (eh.HandleEvents startBlock endBlock w).trace =
        [(logs.filterMap eh.unpackDeposit).map eh.newMessage] := by
    rintro ⟨l, hl, hd⟩
    simp only [DepositEventHandler.HandleEvents, hfetch]
    split
    · rename_i hnil
      rw [List.map_eq_nil_iff, List.filterMap_eq_nil_iff] at hnil
      rw [hnil l hl] at hd
      simp at hd
    · rename_i m ms hcons
      rw [hcons]
      rfl
  have hnone : (∀ l ∈ logs, eh.unpackDeposit l = none) →
      DepositEvent.writes (eh.HandleEvents startBlock endBlock w).trace = [] := by
    intro hall
    have hnil : List.map eh.newMessage (List.filterMap eh.unpackDeposit logs) = [] := by
      rw [List.map_eq_nil_iff, List.filterMap_eq_nil_iff]
      exact hall
    simp only [DepositEventHandler.HandleEvents, hfetch, hnil]
    rfl
  refine ⟨hres, fun h => ⟨hsome h, ?_⟩, hnone, ?_⟩
  · rw [List.length_map, length_filterMap_eq_countP]
  · intro l1 l2 d hlogs h1 h2
    rw [hsome ⟨l2, by simp [hlogs], by simp [h2]⟩, hlogs]
    simp [List.filterMap_cons, h1, h2]

set_option maxRecDepth 10000 in
/-- C9, exercised on the two logs of `Test_HandleEvents_ValidDeposit`: one batch of length 1
is written. -/
theorem deposit_handle_events_witness :
    ∃ m, DepositEvent.writes (Example.depositHandler.HandleEvents 0 4 ()).trace = [[m]] :=
  ⟨_, (deposit_handle_events Example.depositHandler 0 4 () ()
    [Example.invalidLog, Example.validLog] rfl).2.2.2
    Example.invalidLog Example.validLog
    { DestinationDomainID := 2, DepositNonce := 1
      ResourceID := List.replicate 31 0 ++ [1]
      SenderAddress :=
        [0xd6, 0x8e, 0xb9, 0xb5, 0xe1, 0x35, 0xb9, 0x6c, 0x1a, 0xf1, 0x65, 0xe1, 0xd8, 0xc4,
         0xe2, 0xeb, 0x0e, 0x1c, 0xe4, 0xcd]
      Data := List.replicate 32 0 }
    rfl rfl rfl⟩

end Deposit

end Spectre
